import Mathlib

/-!
Verification of the `safe-fork` library (`src/lib.rs`).

The library wraps three POSIX primitives: `unshare(CLONE_VM)` (the
thread-singleton guard), `fork` (process duplication) and `waitpid`
(reaping a child).  We embed the library shallowly: the outcome of each
OS primitive during one invocation is recorded in a `World` value, and
each Rust function becomes a pure Lean function of that `World`.
Machine integers (`c_int`, `pid_t`, `i32`) are modelled as `Int`; the
raw wait-status word is modelled as its bit pattern, a `Nat`.
-/

/-- Outcome of the OS primitives for one invocation of the library.
`waitpid` results are functions of the pid passed to the call, so that
dependence on the pid argument is visible in the model.  Errno values
are the `last_os_error` observed right after the corresponding call. -/
structure World where
  /-- Return value of `libc::unshare(libc::CLONE_VM)`. -/
  unshareRet : Int
  /-- `errno` after the `unshare` call. -/
  unshareErrno : Int
  /-- Return value of `libc::fork()`: `-1` on failure, `0` in the child,
  the child pid in the parent. -/
  forkRet : Int
  /-- `errno` after the `fork` call. -/
  forkErrno : Int
  /-- Return value of `libc::waitpid(pid, &mut status, 0)` as a function
  of the `pid` argument. -/
  waitpidRet : Int → Int
  /-- Status word written by `waitpid(pid, ..)`, as a bit pattern. -/
  waitpidStatus : Int → Nat
  /-- `errno` after the `waitpid(pid, ..)` call. -/
  waitpidErrno : Int → Int

/-- `ensure_single_threaded` (src/lib.rs:6-13): calls
`unshare(CLONE_VM)` once; `0` means success, anything else surfaces the
last OS error. -/
def ensure_single_threaded (w : World) : Except Int Unit :=
  if w.unshareRet = 0 then .ok () else .error w.unshareErrno

/-- Trace-instrumented form of `ensure_single_threaded`: `calls n` is the
(return value, errno) pair of the `n`-th `unshare(CLONE_VM)` invocation
of the process, and `k` counts how many such invocations happened so
far.  The function samples exactly one entry of the trace and returns
the result together with the updated invocation count. -/
def ensure_single_threaded_traced (calls : Nat → Int × Int) (k : Nat) :
    (Except Int Unit) × Nat :=
  if (calls k).1 = 0 then (.ok (), k + 1) else (.error (calls k).2, k + 1)

/-- `is_single_threaded` (src/lib.rs:16-18): `ensure_single_threaded().is_ok()`. -/
def is_single_threaded (w : World) : Bool :=
  match ensure_single_threaded w with
  | .ok _ => true
  | .error _ => false

/-- Trace-instrumented form of `is_single_threaded`; like the Rust
source it is implemented by running the guard itself. -/
def is_single_threaded_traced (calls : Nat → Int × Int) (k : Nat) :
    Bool × Nat :=
  match ensure_single_threaded_traced calls k with
  | (.ok _, n) => (true, n)
  | (.error _, n) => (false, n)

/-- `Child` (src/lib.rs:23-25): a thin wrapper of the raw `pid_t`. -/
structure Child where
  pid : Int
deriving DecidableEq

/-- `Child::pid` (src/lib.rs:29-31): `self.pid as _` with the inferred
target type `u32`, i.e. the wrapping `i32 → u32` conversion of the
stored pid. -/
def Child.pid_u32 (c : Child) : Nat := (c.pid % (2 ^ 32 : Int)).toNat

/-- The raw status word produced by `waitpid`, wrapped like Rust's
`std::process::ExitStatus::from_raw`.  The word is kept as its bit
pattern. -/
structure ExitStatus where
  raw : Nat
deriving DecidableEq

/-- glibc `WIFEXITED(status)`: `(status & 0x7f) == 0`. -/
def wifexited (s : Nat) : Bool := s % 128 = 0

/-- glibc `WEXITSTATUS(status)`: `(status >> 8) & 0xff`. -/
def wexitstatus (s : Nat) : Nat := (s / 256) % 256

/-- glibc `WIFSIGNALED(status)`:
`((status & 0x7f) + 1) as i8 >> 1 > 0`, with the `i8` cast and the
arithmetic right shift made explicit on `Int`. -/
def wifsignaled (s : Nat) : Bool :=
  let t : Int := (s % 128 : Nat) + 1
  let t8 : Int := if t < 128 then t else t - 256
  decide (0 < t8 / 2)

/-- glibc `WTERMSIG(status)`: `status & 0x7f`. -/
def wtermsig (s : Nat) : Nat := s % 128

/-- `ExitStatus::code` on unix: `Some(WEXITSTATUS)` when `WIFEXITED`,
else `None`. -/
def ExitStatus.code (st : ExitStatus) : Option Int :=
  if wifexited st.raw then some (wexitstatus st.raw : Nat) else none

/-- `ExitStatus::signal` on unix: `Some(WTERMSIG)` when `WIFSIGNALED`,
else `None`. -/
def ExitStatus.signal (st : ExitStatus) : Option Int :=
  if wifsignaled st.raw then some (wtermsig st.raw : Nat) else none

/-- `Child::join` (src/lib.rs:35-43): `waitpid(self.pid, &mut status, 0)`;
a negative return surfaces the last OS error, otherwise the raw status
is returned wrapped in an `ExitStatus`. -/
def Child.join (c : Child) (w : World) : Except Int ExitStatus :=
  if w.waitpidRet c.pid < 0 then .error (w.waitpidErrno c.pid)
  else .ok ⟨w.waitpidStatus c.pid⟩

/-- `fork` (src/lib.rs:49-58): run the guard first (`?` propagates its
error), then match on `libc::fork()`: `-1` is failure, `0` is the child
branch, any other value is the parent branch holding the child pid. -/
def fork (w : World) : Except Int (Option Child) :=
  match ensure_single_threaded w with
  | .error e => .error e
  | .ok _ =>
    if w.forkRet = -1 then .error w.forkErrno
    else if w.forkRet = 0 then .ok none
    else .ok (some ⟨w.forkRet⟩)

/-- Result of `fork_spawn`.  The Rust function never returns in the
child branch (the process exits); that control-flow exit is modelled by
the dedicated `childExit` constructor carrying the code passed to
`std::process::exit`. -/
inductive SpawnResult where
  | err (e : Int)
  | parent (c : Child)
  | childExit (code : Int)
deriving DecidableEq

/-- `fork_spawn` (src/lib.rs:61-68): forks; in the child branch runs the
closure and exits the process with its return value; in the parent
branch returns the `Child` handle from `fork` unchanged. -/
def fork_spawn (w : World) (f : Unit → Int) : SpawnResult :=
  match fork w with
  | .error e => .err e
  | .ok (some c) => .parent c
  | .ok none => .childExit (f ())

/-- Result of `fork_join`; `childExit` marks the child branch in which
the process exits instead of returning. -/
inductive JoinResult where
  | err (e : Int)
  | childExit (code : Int)
  | done (v : Int)
deriving DecidableEq

/-- `fork_join` (src/lib.rs:71-77): `fork_spawn(f)?.join()?`, then
`exit.code().or_else(|| exit.signal().map(|x| x + 128)).unwrap_or(1)`. -/
def fork_join (w : World) (f : Unit → Int) : JoinResult :=
  match fork_spawn w f with
  | .err e => .err e
  | .childExit code => .childExit code
  | .parent c =>
    match c.join w with
    | .error e => .err e
    | .ok st =>
      .done ((st.code.orElse (fun _ => st.signal.map (· + 128))).getD 1)

/-!  Theorems about the embedded library, one per specification claim. -/

/-- C8: `ensure_single_threaded` samples the `unshare(CLONE_VM)`
primitive exactly once per call (the trace counter advances by exactly
one), succeeds exactly when that call returns zero, and on any nonzero
return immediately surfaces the last OS error, with no retry. -/
theorem ensure_single_threaded_contract (w : World)
    (calls : Nat → Int × Int) (k : Nat) :
    (ensure_single_threaded w = .ok () ↔ w.unshareRet = 0) ∧
    (w.unshareRet ≠ 0 → ensure_single_threaded w = .error w.unshareErrno) ∧
    ((ensure_single_threaded_traced calls k).2 = k + 1) ∧
    ((ensure_single_threaded_traced calls k).1 = .ok () ↔ (calls k).1 = 0) ∧
    ((calls k).1 ≠ 0 →
      (ensure_single_threaded_traced calls k).1 = .error (calls k).2) := by
  unfold ensure_single_threaded ensure_single_threaded_traced
  refine ⟨?_, ?_, ?_, ?_, ?_⟩ <;>
    by_cases h : w.unshareRet = 0 <;> by_cases h2 : (calls k).1 = 0 <;> simp_all

theorem ensure_single_threaded_contract_witness :
    ensure_single_threaded (World.mk 3 7 0 0 (fun _ => 0) (fun _ => 0) (fun _ => 0))
      = .error 7 :=
  (ensure_single_threaded_contract
    (World.mk 3 7 0 0 (fun _ => 0) (fun _ => 0) (fun _ => 0))
    (fun _ => (0, 0)) 0).2.1 (by decide)

/-- C9: `is_single_threaded` is the guard itself: it returns `true`
exactly when `ensure_single_threaded` succeeds on the same OS state, and
its traced form performs exactly the same single `unshare` invocation
as the guard (it is not a side-effect-free query). -/
theorem is_single_threaded_iff_guard_ok (w : World)
    (calls : Nat → Int × Int) (k : Nat) :
    (is_single_threaded w = true ↔ ensure_single_threaded w = .ok ()) ∧
    ((is_single_threaded_traced calls k).1 = true ↔
      (ensure_single_threaded_traced calls k).1 = .ok ()) ∧
    ((is_single_threaded_traced calls k).2 =
      (ensure_single_threaded_traced calls k).2) ∧
    ((is_single_threaded_traced calls k).2 = k + 1) := by
  unfold is_single_threaded is_single_threaded_traced
    ensure_single_threaded ensure_single_threaded_traced
  refine ⟨?_, ?_, ?_, ?_⟩ <;>
    by_cases h : w.unshareRet = 0 <;> by_cases h2 : (calls k).1 = 0 <;> simp_all

theorem is_single_threaded_iff_guard_ok_witness :
    is_single_threaded (World.mk 0 0 0 0 (fun _ => 0) (fun _ => 0) (fun _ => 0))
      = true :=
  (is_single_threaded_iff_guard_ok
    (World.mk 0 0 0 0 (fun _ => 0) (fun _ => 0) (fun _ => 0))
    (fun _ => (0, 0)) 0).1.mpr rfl

/-- C2: when the guard fails with OS error `e`, `fork` returns exactly
`e` without consulting the process-duplication call (its result is
independent of the `fork` primitive's return value and errno), and
`fork_spawn` and `fork_join` propagate exactly the same error `e`. -/
theorem guard_error_propagation (w : World) (e : Int) (f : Unit → Int)
    (h : ensure_single_threaded w = .error e) :
    fork w = .error e ∧ fork_spawn w f = .err e ∧ fork_join w f = .err e ∧
    (∀ r er : Int, fork { w with forkRet := r, forkErrno := er } = .error e) := by
  have h2 : ∀ r er : Int,
      ensure_single_threaded { w with forkRet := r, forkErrno := er } = .error e := by
    intro r er
    simpa [ensure_single_threaded] using h
  refine ⟨?_, ?_, ?_, ?_⟩
  · simp [fork, h]
  · simp [fork_spawn, fork, h]
  · simp [fork_join, fork_spawn, fork, h]
  · intro r er
    simp [fork, h2 r er]

theorem guard_error_propagation_witness :
    fork_join (World.mk 9 11 1 0 (fun _ => 0) (fun _ => 0) (fun _ => 0))
      (fun _ => 5) = .err 11 :=
  (guard_error_propagation
    (World.mk 9 11 1 0 (fun _ => 0) (fun _ => 0) (fun _ => 0))
    11 (fun _ => 5) rfl).2.2.1

/-- C3: when `fork` signals the child branch, `fork_spawn` runs the
caller-supplied function and terminates the process with its return
value as the exit code, never returning a parent handle; when `fork`
signals the parent branch, `fork_spawn` returns the `Child` handle
produced by `fork` unmodified. -/
theorem fork_spawn_branches (w : World) (f : Unit → Int) :
    (fork w = .ok none →
      fork_spawn w f = .childExit (f ()) ∧
      ∀ c : Child, fork_spawn w f ≠ .parent c) ∧
    (∀ c : Child, fork w = .ok (some c) → fork_spawn w f = .parent c) := by
  constructor
  · intro h
    constructor
    · simp [fork_spawn, h]
    · intro c
      simp [fork_spawn, h]
  · intro c h
    simp [fork_spawn, h]

theorem fork_spawn_branches_witness :
    fork_spawn (World.mk 0 0 0 0 (fun _ => 0) (fun _ => 0) (fun _ => 0))
      (fun _ => 9) = .childExit 9 :=
  ((fork_spawn_branches
    (World.mk 0 0 0 0 (fun _ => 0) (fun _ => 0) (fun _ => 0))
    (fun _ => 9)).1 rfl).1

/-- C4: after a successful guard, a negative return of the OS
process-duplication call (which, by the POSIX contract of `fork`, can
only be `-1`) makes `fork` return the last OS error, and no `Child`
handle is produced. -/
theorem fork_negative_is_error (w : World)
    (hok : ensure_single_threaded w = .ok ())
    (hneg : w.forkRet < 0)
    (hposix : w.forkRet = -1 ∨ 0 ≤ w.forkRet) :
    fork w = .error w.forkErrno ∧ ∀ c : Child, fork w ≠ .ok (some c) := by
  have h1 : w.forkRet = -1 := by omega
  constructor
  · simp [fork, hok, h1]
  · intro c
    simp [fork, hok, h1]

theorem fork_negative_is_error_witness :
    fork (World.mk 0 0 (-1) 12 (fun _ => 0) (fun _ => 0) (fun _ => 0))
      = .error 12 :=
  (fork_negative_is_error
    (World.mk 0 0 (-1) 12 (fun _ => 0) (fun _ => 0) (fun _ => 0))
    rfl (by decide) (Or.inl rfl)).1

/-- C5: after a successful guard, a zero return of the OS
process-duplication call makes `fork` return the child indicator
(`Ok(None)`), and a positive return `p` makes it return a `Child`
handle wrapping exactly `p`. -/
theorem fork_child_and_parent (w : World)
    (hok : ensure_single_threaded w = .ok ()) :
    (w.forkRet = 0 → fork w = .ok none) ∧
    (∀ p : Int, 0 < p → w.forkRet = p → fork w = .ok (some (Child.mk p))) := by
  constructor
  · intro h
    simp [fork, hok, h]
  · intro p hp h
    subst h
    simp only [fork, hok]
    rw [if_neg (by omega), if_neg (by omega)]

theorem fork_child_and_parent_witness :
    fork (World.mk 0 0 431 0 (fun _ => 0) (fun _ => 0) (fun _ => 0))
      = .ok (some (Child.mk 431)) :=
  (fork_child_and_parent
    (World.mk 0 0 431 0 (fun _ => 0) (fun _ => 0) (fun _ => 0))
    rfl).2 431 (by decide) rfl

/-- C7: `Child.join` consults the wait-for-child call at exactly the pid
stored in the handle: its outcome depends only on the `waitpid` results
at that pid; a negative `waitpid` return yields the last OS error and a
non-negative return yields the raw status wrapped as an `ExitStatus`. -/
theorem join_contract (c : Child) (w : World) :
    (w.waitpidRet c.pid < 0 → c.join w = .error (w.waitpidErrno c.pid)) ∧
    (0 ≤ w.waitpidRet c.pid → c.join w = .ok ⟨w.waitpidStatus c.pid⟩) ∧
    (∀ v : World, v.waitpidRet c.pid = w.waitpidRet c.pid →
      v.waitpidStatus c.pid = w.waitpidStatus c.pid →
      v.waitpidErrno c.pid = w.waitpidErrno c.pid →
      c.join v = c.join w) := by
  refine ⟨?_, ?_, ?_⟩
  · intro h
    simp [Child.join, h]
  · intro h
    rw [Child.join, if_neg (by omega)]
  · intro v h1 h2 h3
    rw [Child.join, Child.join, h1, h2, h3]

theorem join_contract_witness :
    (Child.mk 8).join (World.mk 0 0 0 0 (fun _ => -1) (fun _ => 0) (fun _ => 3))
      = .error 3 :=
  (join_contract (Child.mk 8)
    (World.mk 0 0 0 0 (fun _ => -1) (fun _ => 0) (fun _ => 3))).1 (by decide)

/-- C10: for a handle storing pid value `p` (a `pid_t`, so within the
`i32` range), `Child.pid_u32` is the wrapping `u32` conversion of `p`:
it equals `p` modulo `2^32`, which is `p` itself for non-negative `p`
and `p + 2^32` for negative `p`; the stored pid field is untouched. -/
theorem pid_u32_wraps (p : Int)
    (hlo : -(2 ^ 31) ≤ p) (hhi : p < 2 ^ 31) :
    (Child.mk p).pid_u32 = (p % 2 ^ 32).toNat ∧
    (0 ≤ p → ((Child.mk p).pid_u32 : Int) = p) ∧
    (p < 0 → ((Child.mk p).pid_u32 : Int) = p + 2 ^ 32) ∧
    (Child.mk p).pid = p := by
  refine ⟨rfl, ?_, ?_, rfl⟩ <;>
    intro h <;> simp only [Child.pid_u32] <;> omega

theorem pid_u32_wraps_witness :
    (Child.mk (-2)).pid_u32 = 4294967294 := by
  have h := (pid_u32_wraps (-2) (by decide) (by decide)).2.2.1 (by decide)
  omega

/-- C1: in the parent branch with a successful wait, `fork_join`
normalizes the wait outcome to a single integer: a normal exit with
code `c` (necessarily between 0 and 255) yields exactly `c`; otherwise
a termination by signal `s` yields exactly `128 + s`; and if neither an
exit code nor a terminating signal is determinable, it yields 1. -/
theorem fork_join_normalizes (w : World) (f : Unit → Int)
    (hg : w.unshareRet = 0) (hp : 0 < w.forkRet)
    (hw : 0 ≤ w.waitpidRet w.forkRet) :
    (∀ c : Int, (ExitStatus.mk (w.waitpidStatus w.forkRet)).code = some c →
      fork_join w f = .done c ∧ 0 ≤ c ∧ c ≤ 255) ∧
    (∀ s : Int, (ExitStatus.mk (w.waitpidStatus w.forkRet)).code = none →
      (ExitStatus.mk (w.waitpidStatus w.forkRet)).signal = some s →
      fork_join w f = .done (s + 128)) ∧
    ((ExitStatus.mk (w.waitpidStatus w.forkRet)).code = none →
      (ExitStatus.mk (w.waitpidStatus w.forkRet)).signal = none →
      fork_join w f = .done 1) := by
  have hfork : fork w = .ok (some ⟨w.forkRet⟩) := by
    simp only [fork, ensure_single_threaded, if_pos hg]
    rw [if_neg (by omega), if_neg (by omega)]
  have hpid : (Child.mk w.forkRet).pid = w.forkRet := rfl
  have hjoin : (Child.mk w.forkRet).join w = .ok ⟨w.waitpidStatus w.forkRet⟩ := by
    rw [Child.join, hpid, if_neg (by omega)]
  have hfj : fork_join w f =
      .done (((ExitStatus.mk (w.waitpidStatus w.forkRet)).code.orElse
        (fun _ =>
          (ExitStatus.mk (w.waitpidStatus w.forkRet)).signal.map (· + 128))).getD 1) := by
    simp only [fork_join, fork_spawn, hfork, hjoin]
  refine ⟨?_, ?_, ?_⟩
  · intro c hc
    refine ⟨?_, ?_⟩
    · rw [hfj, hc]
      rfl
    · rw [ExitStatus.code] at hc
      by_cases he : wifexited (w.waitpidStatus w.forkRet)
      · rw [if_pos he] at hc
        simp only [Option.some.injEq] at hc
        subst hc
        unfold wexitstatus
        constructor <;> omega
      · rw [if_neg he] at hc
        cases hc
  · intro s hc hs
    rw [hfj, hc, hs]
    rfl
  · intro hc hs
    rw [hfj, hc, hs]
    rfl

theorem fork_join_normalizes_witness :
    fork_join (World.mk 0 0 1 0 (fun _ => 0) (fun _ => 10752) (fun _ => 0))
      (fun _ => 7) = .done 42 :=
  ((fork_join_normalizes
    (World.mk 0 0 1 0 (fun _ => 0) (fun _ => 10752) (fun _ => 0))
    (fun _ => 7) rfl (by decide) (by decide)).1 42 (by decide)).1
